import Mathlib

/-!
Shallow embedding of the knowledge-graph construction engine in
src/knowledge_graph.py: the data model (TicketNode, TicketTree,
KnowledgeGraph), rule-based section extraction, code-block extraction,
per-ticket tree construction, explicit and implicit connection
discovery, and the build pipeline, together with theorems checking
the specification against these definitions.
-/

namespace KG

/-- Embeds the `TicketNode` dataclass (`id`, `section`, `content`).
The Python field `section` is a Lean keyword, hence `section'`. -/
structure TicketNode where
  id : String
  section' : String
  content : String
deriving DecidableEq, Repr

/-- Embeds the `TicketTree` dataclass: an identifier, the fragment list and
labeled edges `(fromNode, toNode, relationshipType)`. -/
structure TicketTree where
  id : String
  nodes : List TicketNode
  edges : List (String × String × String)
deriving DecidableEq, Repr

/-- Embeds a link record `{"ticket_id": ..., "relationship": ...}` as read
by `find_explicit_connections`. -/
structure Link where
  ticket_id : String
  relationship : String
deriving DecidableEq, Repr

/-- Embeds the loosely-typed ticket dictionary: each recognized key is an
optional string field (`none` models an absent key), `links` an optional
list of link records. -/
structure Ticket where
  id : Option String := none
  Summary : Option String := none
  summary : Option String := none
  title : Option String := none
  Description : Option String := none
  description : Option String := none
  text : Option String := none
  Priority : Option String := none
  priority : Option String := none
  links : Option (List Link) := none
deriving DecidableEq, Repr

/-- Embeds Python `a or b` for the field lookups: `ticket.get(k)` is falsy
when the key is absent (`None`) or the value is the empty string, in which
case the right operand is taken. -/
def pyOr (a : Option String) (b : String) : String :=
  match a with
  | some s => if s = "" then b else s
  | none => b

/-- Python `str.strip()` whitespace test (ASCII whitespace). -/
def isSpace (c : Char) : Bool :=
  c == ' ' || c == '\t' || c == '\n' || c == '\r' || c == '\x0b' || c == '\x0c'

/-- Python `s.strip()`: drop whitespace from both ends. -/
def pyStrip (s : String) : String :=
  String.mk (((s.data.dropWhile isSpace).reverse.dropWhile isSpace).reverse)

/-- Character-list core of Python `s.startswith(pre)`. -/
def charsStartWith : List Char → List Char → Bool
  | _, [] => true
  | [], _ :: _ => false
  | c :: cs, d :: ds => c == d && charsStartWith cs ds

/-- Python `s.startswith(pre)`. -/
def pyStartswith (s pre : String) : Bool := charsStartWith s.data pre.data

/-- Character-list core of Python `text.split('\n')`. -/
def splitLinesChars : List Char → List (List Char)
  | [] => [[]]
  | c :: cs =>
    match splitLinesChars cs with
    | [] => [[]]
    | l :: ls => if c = '\n' then [] :: l :: ls else (c :: l) :: ls

/-- Python `text.split('\n')`. -/
def pySplitLines (s : String) : List String := (splitLinesChars s.data).map String.mk

/-- Python `s[:n]` (slicing counts characters). -/
def pyTake (s : String) (n : Nat) : String := String.mk (s.data.take n)

/-- Loop state of `_extract_code_sections`: collected sections, the
`in_code_block` flag and the current block lines. -/
structure ExtractState where
  secs : List String
  in_code_block : Bool
  cur : List String
deriving DecidableEq, Repr

/-- One iteration of the line loop of `_extract_code_sections`: a line whose
stripped form starts with a fence marker flushes a pending block and toggles
the capture flag; otherwise the indented-block rules update the flag (a
non-indented, non-blank line while capturing flushes and stops capture),
and finally a captured line is appended stripped unless its stripped form
starts with one of the three markers. -/
def extract_step (st : ExtractState) (line : String) : ExtractState :=
  if pyStartswith (pyStrip line) "```" || pyStartswith (pyStrip line) "~~~" then
    { secs := if st.in_code_block && !st.cur.isEmpty then
        st.secs ++ [String.intercalate "\n" st.cur] else st.secs
      in_code_block := !st.in_code_block
      cur := if st.in_code_block && !st.cur.isEmpty then [] else st.cur }
  else
    let st1 :=
      if !st.in_code_block && pyStartswith line "    " then
        { st with in_code_block := true }
      else if st.in_code_block && !pyStartswith line "    " && pyStrip line != "" then
        { secs := if !st.cur.isEmpty then
            st.secs ++ [String.intercalate "\n" st.cur] else st.secs
          in_code_block := false
          cur := [] }
      else st
    if st1.in_code_block
        && !pyStartswith (pyStrip line) "```" && !pyStartswith (pyStrip line) "~~~"
        && !pyStartswith (pyStrip line) "    " then
      { st1 with cur := st1.cur ++ [pyStrip line] }
    else st1

/-- Embeds `_extract_code_sections`: fold the line loop over
`text.split('\n')` and flush any remaining block at the end. -/
def extract_code_sections (text : String) : List String :=
  let fin := (pySplitLines text).foldl extract_step (ExtractState.mk [] false [])
  if !fin.cur.isEmpty then fin.secs ++ [String.intercalate "\n" fin.cur]
  else fin.secs

/-- Embeds `parse_ticket_with_rules`.  A raised `ValueError` is modelled as
`Except.error`; the `str(...)` coercions are identities because the model
fields are strings.  `parse_ticket_with_llm` contributes no fragments in
this code base (its helper `_extract_section_with_llm` returns the empty
string, which is falsy, so no node is appended on that path), so the node
list produced here is the full `all_nodes` of `build_graph`. -/
def parse_ticket_with_rules (ticket : Ticket) : Except String (List TicketNode) :=
  match ticket.id with
  | none => Except.error "ticket must have an id field"
  | some tid =>
    let summary_content := pyOr ticket.Summary (pyOr ticket.summary (ticket.title.getD ""))
    let description_content := pyOr ticket.Description (pyOr ticket.description (ticket.text.getD ""))
    let priority := pyOr ticket.Priority (ticket.priority.getD "")
    let summary_nodes := if summary_content ≠ "" then
        [TicketNode.mk (tid ++ "_summary") "Summary" summary_content] else []
    let description_nodes := if description_content ≠ "" then
        [TicketNode.mk (tid ++ "_description") "Description" description_content] else []
    let priority_nodes := if priority ≠ "" then
        [TicketNode.mk (tid ++ "_priority") "Priority" priority] else []
    let code_nodes := if description_content ≠ "" then
        (extract_code_sections description_content).enum.map
          (fun p => TicketNode.mk (tid ++ "_code_" ++ toString p.1) "Code" p.2)
      else []
    Except.ok (summary_nodes ++ description_nodes ++ priority_nodes ++ code_nodes)

/-- Root selection of `construct_ticket_tree`:
`next((n for n in nodes if n.section == "Summary"), nodes[0])`. -/
def rootFragment (n0 : TicketNode) (nodes : List TicketNode) : TicketNode :=
  (nodes.find? (fun n => n.section' == "Summary")).getD n0

/-- Embeds `construct_ticket_tree`.  `root_node.id.split('_')[0]` — the part
of the identifier before the first underscore — is written as `takeWhile`
over the character list.  The per-node test `node != root_node` is Python
dataclass (structural) equality.  A Code node is additionally linked by a
`has_code` edge from the first Description node, if one exists. -/
def construct_ticket_tree : List TicketNode → TicketTree
  | [] => TicketTree.mk "" [] []
  | n0 :: rest =>
    let nodes := n0 :: rest
    let root := rootFragment n0 nodes
    let ticket_id := String.mk (root.id.data.takeWhile (fun c => c != '_'))
    let edges := nodes.flatMap (fun node =>
      (if node ≠ root then [(root.id, node.id, "contains")] else []) ++
      (if node.section' == "Code" then
        match nodes.find? (fun p => p.section' == "Description") with
        | some p => [(p.id, node.id, "has_code")]
        | none => []
      else []))
    TicketTree.mk ticket_id nodes edges

/-- The node loop of `get_ticket_title` (the fallback is `tree.id`): the
first Summary node returns its content, but a Description node met first
returns its 50-character prefix immediately. -/
def title_from_nodes (fallback : String) : List TicketNode → String
  | [] => fallback
  | n :: rest =>
    if n.section' == "Summary" then n.content
    else if n.section' == "Description" then pyTake n.content 50
    else title_from_nodes fallback rest

/-- Embeds `get_ticket_title`. -/
def get_ticket_title (tree : TicketTree) : String :=
  title_from_nodes tree.id tree.nodes

/-- Value of a floating-point expression: a real number or NaN. -/
inductive FloatVal where
  | nan : FloatVal
  | val : ℝ → FloatVal

/-- Embeds `np.dot` on equal-length vectors. -/
def dotProduct (v1 v2 : List ℝ) : ℝ := (List.zipWith (fun a b => a * b) v1 v2).sum

/-- Embeds `np.linalg.norm`, the Euclidean norm. -/
noncomputable def norm2 (v : List ℝ) : ℝ := Real.sqrt ((v.map (fun x => x * x)).sum)

/-- Embeds `cosine_similarity`: `np.dot(vec1, vec2)` divided by
`np.linalg.norm(vec1) * np.linalg.norm(vec2)`, in real arithmetic.  The code
has no zero-norm guard; when the denominator is zero the numerator is zero
as well (a vector of zero norm is the zero vector), and IEEE `0.0 / 0.0`
evaluates to NaN, modelled as `.nan`. -/
noncomputable def cosine_similarity (v1 v2 : List ℝ) : FloatVal :=
  if norm2 v1 * norm2 v2 = 0 then FloatVal.nan
  else FloatVal.val (dotProduct v1 v2 / (norm2 v1 * norm2 v2))

/-- Embeds `calculate_similarity`.  The external embedding model is the
parameter `embed` (`none` models a raised provider exception, handled by
the `except` clause that returns `0.0`); the cosine of two successfully
returned vectors is the parameter `cos`, its float value idealized as a
rational. -/
def calculate_similarity (cos : List ℚ → List ℚ → ℚ) (embed : String → Option (List ℚ))
    (tree1 tree2 : TicketTree) : ℚ :=
  match embed (get_ticket_title tree1), embed (get_ticket_title tree2) with
  | some e1, some e2 => cos e1 e2
  | _, _ => 0

/-- Embeds `find_implicit_connections`: for each `tree1`, scan the trees
after it (`trees[i+1:]`) and keep the pairs with
`similarity >= self.similarity_threshold`.  The pair similarity `sim`
stands for `self.calculate_similarity` and `threshold` for the
configured `self.similarity_threshold`. -/
def find_implicit_connections (sim : TicketTree → TicketTree → ℚ) (threshold : ℚ) :
    List TicketTree → List (String × String × ℚ)
  | [] => []
  | tree1 :: rest =>
    rest.filterMap (fun tree2 =>
      if threshold ≤ sim tree1 tree2 then some (tree1.id, tree2.id, sim tree1 tree2)
      else none)
    ++ find_implicit_connections sim threshold rest

/-- The link loop of `find_explicit_connections` for one ticket: each
iteration evaluates `ticket['id']` — raising `KeyError` when the key is
absent — and appends one `(id, link.ticket_id, link.relationship)` row. -/
def ticket_link_rows_go (tid : Option String) :
    List Link → Except String (List (String × String × String))
  | [] => Except.ok []
  | l :: ls =>
    match tid with
    | none => Except.error "KeyError: id"
    | some i =>
      match ticket_link_rows_go tid ls with
      | Except.error e => Except.error e
      | Except.ok rest => Except.ok ((i, l.ticket_id, l.relationship) :: rest)

/-- Embeds `if 'links' in ticket: for link in ticket['links']: ...` — the
id lookup can only raise when the links list is non-empty. -/
def ticket_link_rows (ticket : Ticket) : Except String (List (String × String × String)) :=
  match ticket.links with
  | none => Except.ok []
  | some ls => ticket_link_rows_go ticket.id ls

/-- Embeds `find_explicit_connections`: concatenate each ticket's link rows
in order; a `KeyError` aborts the scan. -/
def find_explicit_connections : List Ticket → Except String (List (String × String × String))
  | [] => Except.ok []
  | t :: rest =>
    match ticket_link_rows t with
    | Except.error e => Except.error e
    | Except.ok cs =>
      match find_explicit_connections rest with
      | Except.error e => Except.error e
      | Except.ok cs2 => Except.ok (cs ++ cs2)

/-- The per-ticket loop of `build_graph`: the `try/except` appends a tree on
success and, on failure, records the error datum `ticket.get("id", "unknown")`
passed to the logger.  Result: (trees, logged failing ticket ids). -/
def build_graph_trees : List Ticket → List TicketTree × List String
  | [] => ([], [])
  | t :: rest =>
    let r := build_graph_trees rest
    match parse_ticket_with_rules t with
    | Except.ok ns => (construct_ticket_tree ns :: r.1, r.2)
    | Except.error _ => (r.1, (t.id.getD "unknown") :: r.2)

/-- Embeds the `KnowledgeGraph` dataclass. -/
structure KnowledgeGraph where
  trees : List TicketTree
  explicit_connections : List (String × String × String)
  implicit_connections : List (String × String × ℚ)
deriving DecidableEq, Repr

/-- Embeds `build_graph`: per-ticket tree construction with failures
isolated, then explicit connections (a `KeyError` there propagates and
aborts the whole build), then implicit connections over the built trees.
The second component of the result is the error log of the tree phase. -/
def build_graph (cos : List ℚ → List ℚ → ℚ) (embed : String → Option (List ℚ))
    (threshold : ℚ) (tickets : List Ticket) :
    Except String (KnowledgeGraph × List String) :=
  let tr := build_graph_trees tickets
  match find_explicit_connections tickets with
  | Except.error e => Except.error e
  | Except.ok ec =>
    Except.ok (KnowledgeGraph.mk tr.1 ec
      (find_implicit_connections (calculate_similarity cos embed) threshold tr.1), tr.2)

end KG

namespace KG

/-! ### Generic helper lemmas -/

theorem string_mk_data (s : String) : String.mk s.data = s := rfl

theorem rootFragment_mem (n0 : TicketNode) (rest : List TicketNode) :
    rootFragment n0 (n0 :: rest) ∈ n0 :: rest := by
  unfold rootFragment
  cases h : (n0 :: rest).find? (fun n => n.section' == "Summary") with
  | none => simp
  | some r => simpa using List.mem_of_find?_eq_some h

theorem construct_nodes_eq (n0 : TicketNode) (rest : List TicketNode) :
    (construct_ticket_tree (n0 :: rest)).nodes = n0 :: rest := rfl

theorem construct_edges_eq (n0 : TicketNode) (rest : List TicketNode) :
    (construct_ticket_tree (n0 :: rest)).edges =
      (n0 :: rest).flatMap (fun node =>
        (if node ≠ rootFragment n0 (n0 :: rest) then
            [((rootFragment n0 (n0 :: rest)).id, node.id, "contains")] else []) ++
        (if node.section' == "Code" then
          match (n0 :: rest).find? (fun p => p.section' == "Description") with
          | some p => [(p.id, node.id, "has_code")]
          | none => []
        else [])) := rfl

theorem ids_inj {nodes : List TicketNode}
    (hdist : nodes.Pairwise (fun a b => a.id ≠ b.id)) :
    ∀ m ∈ nodes, ∀ n ∈ nodes, m.id = n.id → m = n := by
  intro m hm n hn heq
  by_contra hne
  have hsym : Symmetric (fun (a b : TicketNode) => a.id ≠ b.id) :=
    fun a b h hba => h hba.symm
  exact hdist.forall hsym hm hn hne heq

theorem filter_flatMap_eq {α β : Type} (p : α → Bool) (f : β → List α) (l : List β) :
    (l.flatMap f).filter p = l.flatMap (fun b => (f b).filter p) := by
  induction l with
  | nil => rfl
  | cons b bs ih => simp [List.flatMap_cons, List.filter_append, ih]

theorem length_flatMap_ite {α β : Type} (q : β → Bool) (g : β → α) (l : List β) :
    (l.flatMap (fun b => if q b then [g b] else [])).length = l.countP q := by
  induction l with
  | nil => rfl
  | cons b bs ih =>
    by_cases h : q b <;> simp [List.flatMap_cons, h, ih, List.countP_cons]

/-- Number of "contains" edges of a tree that point into a given node id. -/
def containsInto (t : TicketTree) (nid : String) : Nat :=
  (t.edges.filter (fun e => e.2.2 == "contains" && e.2.1 == nid)).length

theorem per_node_filter (root : TicketNode) (nodes : List TicketNode)
    (node : TicketNode) (nid : String) :
    ((if node ≠ root then [(root.id, node.id, "contains")] else []) ++
      (if node.section' == "Code" then
        match nodes.find? (fun p => p.section' == "Description") with
        | some p => [(p.id, node.id, "has_code")]
        | none => []
      else [])).filter
        (fun e : String × String × String => e.2.2 == "contains" && e.2.1 == nid) =
      (if decide (node ≠ root) && (node.id == nid)
        then [(root.id, node.id, "contains")] else []) := by
  rw [List.filter_append]
  have h2 : (if node.section' == "Code" then
        match nodes.find? (fun p => p.section' == "Description") with
        | some p => [(p.id, node.id, "has_code")]
        | none => []
      else []).filter
        (fun e : String × String × String => e.2.2 == "contains" && e.2.1 == nid) = [] := by
    by_cases hc : node.section' == "Code"
    · simp only [hc, if_pos]
      cases nodes.find? (fun p => p.section' == "Description") with
      | none => rfl
      | some p => simp [List.filter_cons]
    · simp [hc]
  rw [h2, List.append_nil]
  by_cases hr : node ≠ root
  · by_cases hid : node.id = nid
    · simp [hr, hid, List.filter_cons]
    · simp [hr, hid, List.filter_cons]
  · simp [hr]

theorem containsInto_construct (n0 : TicketNode) (rest : List TicketNode) (nid : String) :
    containsInto (construct_ticket_tree (n0 :: rest)) nid =
      (n0 :: rest).countP
        (fun node => decide (node ≠ rootFragment n0 (n0 :: rest)) && (node.id == nid)) := by
  unfold containsInto
  rw [construct_edges_eq, filter_flatMap_eq]
  simp only [per_node_filter]
  exact length_flatMap_ite _ _ _

theorem contains_edge_mem (n0 : TicketNode) (rest : List TicketNode) (x y : String)
    (h : (x, y, "contains") ∈ (construct_ticket_tree (n0 :: rest)).edges) :
    x = (rootFragment n0 (n0 :: rest)).id ∧
      ∃ n ∈ n0 :: rest, n ≠ rootFragment n0 (n0 :: rest) ∧ y = n.id := by
  rw [construct_edges_eq] at h
  rw [List.mem_flatMap] at h
  obtain ⟨node, hnode, hmem⟩ := h
  rcases List.mem_append.mp hmem with h1 | h1
  · by_cases hr : node ≠ rootFragment n0 (n0 :: rest)
    · rw [if_pos hr] at h1
      simp only [List.mem_singleton, Prod.mk.injEq] at h1
      exact ⟨h1.1, node, hnode, hr, h1.2.1⟩
    · rw [if_neg hr] at h1
      exact absurd h1 (List.not_mem_nil _)
  · exfalso
    by_cases hc : node.section' == "Code"
    · rw [if_pos hc] at h1
      cases hf : (n0 :: rest).find? (fun p => p.section' == "Description") with
      | none => rw [hf] at h1; exact List.not_mem_nil _ h1
      | some p =>
        rw [hf] at h1
        simp only [List.mem_singleton, Prod.mk.injEq] at h1
        exact absurd h1.2.2 (by decide)
    · rw [if_neg hc] at h1
      exact List.not_mem_nil _ h1

/-! ### C3: tree shape invariants -/

/-- Claim C3 counterexample: with a duplicated Description fragment in the input
sequence the non-root fragment id `t_description` receives TWO incoming
"contains" edges, violating the single-parent property the claim states
for every non-empty fragment sequence. -/
theorem construct_ticket_tree_duplicate_double_parent :
    TicketNode.mk "t_description" "Description" "x" ∈
      (construct_ticket_tree [TicketNode.mk "t_summary" "Summary" "s",
        TicketNode.mk "t_description" "Description" "x",
        TicketNode.mk "t_description" "Description" "x"]).nodes ∧
    TicketNode.mk "t_description" "Description" "x" ≠
      rootFragment (TicketNode.mk "t_summary" "Summary" "s")
        [TicketNode.mk "t_summary" "Summary" "s",
         TicketNode.mk "t_description" "Description" "x",
         TicketNode.mk "t_description" "Description" "x"] ∧
    containsInto (construct_ticket_tree [TicketNode.mk "t_summary" "Summary" "s",
        TicketNode.mk "t_description" "Description" "x",
        TicketNode.mk "t_description" "Description" "x"]) "t_description" = 2 := by
  decide

/-- Claim C3 (amended): for a non-empty fragment sequence whose fragment ids are
pairwise distinct (as the extractor produces), the built tree has the
selected root among its nodes, a fragment has no incoming "contains" edge
exactly when it is the root, every non-root fragment has exactly one
incoming "contains" edge, and the "contains" relation is acyclic. -/
theorem construct_ticket_tree_invariants (n0 : TicketNode) (rest : List TicketNode)
    (hdist : (n0 :: rest).Pairwise (fun a b => a.id ≠ b.id)) :
    rootFragment n0 (n0 :: rest) ∈ (construct_ticket_tree (n0 :: rest)).nodes ∧
    (∀ n ∈ (construct_ticket_tree (n0 :: rest)).nodes,
      (containsInto (construct_ticket_tree (n0 :: rest)) n.id = 0 ↔
        n = rootFragment n0 (n0 :: rest))) ∧
    (∀ n ∈ (construct_ticket_tree (n0 :: rest)).nodes,
      n ≠ rootFragment n0 (n0 :: rest) →
      containsInto (construct_ticket_tree (n0 :: rest)) n.id = 1) ∧
    (∀ a, ¬ Relation.TransGen
      (fun x y => (x, y, "contains") ∈ (construct_ticket_tree (n0 :: rest)).edges) a a) := by
  have hrootmem : rootFragment n0 (n0 :: rest) ∈ n0 :: rest := rootFragment_mem n0 rest
  have hinj := ids_inj hdist
  have hone : ∀ n ∈ n0 :: rest, n ≠ rootFragment n0 (n0 :: rest) →
      containsInto (construct_ticket_tree (n0 :: rest)) n.id = 1 := by
    intro n hn hne
    rw [containsInto_construct]
    have hcongr : (n0 :: rest).countP
        (fun node => decide (node ≠ rootFragment n0 (n0 :: rest)) && (node.id == n.id)) =
        (n0 :: rest).countP (fun node => node == n) := by
      apply List.countP_congr
      intro m hm
      simp only [Bool.and_eq_true, decide_eq_true_eq, beq_iff_eq]
      constructor
      · intro ⟨_, hmid⟩
        exact hinj m hm n hn hmid
      · intro hmn
        subst hmn
        exact ⟨hne, rfl⟩
    rw [hcongr]
    have hnodup : (n0 :: rest).Nodup :=
      hdist.imp (fun h heq => h (by rw [heq]))
    exact List.count_eq_one_of_mem hnodup hn
  have hzero : containsInto (construct_ticket_tree (n0 :: rest))
      (rootFragment n0 (n0 :: rest)).id = 0 := by
    rw [containsInto_construct]
    rw [List.countP_eq_zero]
    intro m hm hq
    simp only [Bool.and_eq_true, decide_eq_true_eq, beq_iff_eq] at hq
    exact hq.1 (hinj m hm _ hrootmem hq.2)
  refine ⟨by rw [construct_nodes_eq]; exact hrootmem, ?_, ?_, ?_⟩
  · intro n hn
    rw [construct_nodes_eq] at hn
    constructor
    · intro hc
      by_contra hne
      rw [hone n hn hne] at hc
      exact one_ne_zero hc
    · intro hr
      rw [hr]
      exact hzero
  · intro n hn
    rw [construct_nodes_eq] at hn
    exact hone n hn
  · intro a h
    have hedge : ∀ x y, (x, y, "contains") ∈ (construct_ticket_tree (n0 :: rest)).edges →
        x = (rootFragment n0 (n0 :: rest)).id ∧ y ≠ (rootFragment n0 (n0 :: rest)).id := by
      intro x y hxy
      obtain ⟨hx, n, hn, hne, hy⟩ := contains_edge_mem n0 rest x y hxy
      refine ⟨hx, ?_⟩
      rw [hy]
      intro hcontra
      exact hne (hinj n hn _ hrootmem hcontra)
    have hend : ∀ x y, Relation.TransGen
        (fun x y => (x, y, "contains") ∈ (construct_ticket_tree (n0 :: rest)).edges) x y →
        y ≠ (rootFragment n0 (n0 :: rest)).id := by
      intro x y hxy
      induction hxy with
      | single h => exact (hedge _ _ h).2
      | tail _ h _ => exact (hedge _ _ h).2
    have hstart : ∀ x y, Relation.TransGen
        (fun x y => (x, y, "contains") ∈ (construct_ticket_tree (n0 :: rest)).edges) x y →
        ∃ c, (x, c, "contains") ∈ (construct_ticket_tree (n0 :: rest)).edges := by
      intro x y hxy
      induction hxy with
      | single h => exact ⟨_, h⟩
      | tail _ _ ih => exact ih
    obtain ⟨c, hc⟩ := hstart a a h
    exact hend a a h (hedge _ _ hc).1

/-- Witness for the amended C3 theorem at a concrete two-fragment input. -/
theorem construct_ticket_tree_invariants_witness :
    ([TicketNode.mk "t_summary" "Summary" "s",
      TicketNode.mk "t_description" "Description" "x"].Pairwise
        (fun a b => a.id ≠ b.id)) ∧
    (rootFragment (TicketNode.mk "t_summary" "Summary" "s")
        [TicketNode.mk "t_summary" "Summary" "s",
         TicketNode.mk "t_description" "Description" "x"] ∈
      (construct_ticket_tree [TicketNode.mk "t_summary" "Summary" "s",
        TicketNode.mk "t_description" "Description" "x"]).nodes ∧
    (∀ n ∈ (construct_ticket_tree [TicketNode.mk "t_summary" "Summary" "s",
        TicketNode.mk "t_description" "Description" "x"]).nodes,
      (containsInto (construct_ticket_tree [TicketNode.mk "t_summary" "Summary" "s",
        TicketNode.mk "t_description" "Description" "x"]) n.id = 0 ↔
        n = rootFragment (TicketNode.mk "t_summary" "Summary" "s")
          [TicketNode.mk "t_summary" "Summary" "s",
           TicketNode.mk "t_description" "Description" "x"])) ∧
    (∀ n ∈ (construct_ticket_tree [TicketNode.mk "t_summary" "Summary" "s",
        TicketNode.mk "t_description" "Description" "x"]).nodes,
      n ≠ rootFragment (TicketNode.mk "t_summary" "Summary" "s")
          [TicketNode.mk "t_summary" "Summary" "s",
           TicketNode.mk "t_description" "Description" "x"] →
      containsInto (construct_ticket_tree [TicketNode.mk "t_summary" "Summary" "s",
        TicketNode.mk "t_description" "Description" "x"]) n.id = 1) ∧
    (∀ a, ¬ Relation.TransGen
      (fun x y => (x, y, "contains") ∈
        (construct_ticket_tree [TicketNode.mk "t_summary" "Summary" "s",
          TicketNode.mk "t_description" "Description" "x"]).edges) a a)) :=
  ⟨by decide,
   construct_ticket_tree_invariants (TicketNode.mk "t_summary" "Summary" "s")
     [TicketNode.mk "t_description" "Description" "x"] (by decide)⟩

/-! ### C1: fenced code-block extraction -/

/-- Claim C1: a description that is exactly the fenced block made of an opening
marker line, the line `x=1` and a closing marker line yields NO Code
fragment at all: the indented-block rule fires on the non-indented body
line while the fence is open, ends capture and drops the line.  The spec
requires exactly one Code fragment with content `x=1`, so the code
contradicts the extraction behaviour its own docstring advertises. -/
theorem extract_code_sections_fenced_block_lost :
    extract_code_sections "```\nx=1\n```" = [] ∧
    parse_ticket_with_rules { id := some "T", Description := some "```\nx=1\n```" } =
      Except.ok [TicketNode.mk "T_description" "Description" "```\nx=1\n```"] := by
  constructor
  · rfl
  · rfl

/-! ### C2: cosine similarity at zero norm -/

/-- Claim C2: on the all-zero vector `[0]` against `[1]` the cosine computation
divides `0.0` by `0.0` and produces NaN, not the value `0` the spec
requires for a zero-norm operand. -/
theorem cosine_similarity_zero_norm_is_nan :
    cosine_similarity [0] [1] = FloatVal.nan ∧ FloatVal.nan ≠ FloatVal.val 0 := by
  constructor
  · unfold cosine_similarity
    rw [if_pos]
    unfold norm2
    simp
  · intro h
    exact FloatVal.noConfusion h

/-! ### C6: representative text of a tree -/

/-- Claim C6 counterexample: a tree whose node list holds a Description fragment
before a Summary fragment.  A Summary fragment exists, yet the title is the
Description prefix `ddd`, not the Summary content `SSS`: the loop returns
on the first Summary-or-Description node it meets. -/
theorem get_ticket_title_summary_after_description :
    (∃ n ∈ (TicketTree.mk "t"
        [TicketNode.mk "t_description" "Description" "ddd",
         TicketNode.mk "t_summary" "Summary" "SSS"] []).nodes,
      n.section' = "Summary" ∧ n.content = "SSS") ∧
    get_ticket_title (TicketTree.mk "t"
        [TicketNode.mk "t_description" "Description" "ddd",
         TicketNode.mk "t_summary" "Summary" "SSS"] []) = "ddd" ∧
    ("ddd" : String) ≠ "SSS" := by
  refine ⟨⟨TicketNode.mk "t_summary" "Summary" "SSS", by simp, rfl, rfl⟩, rfl, by decide⟩

/-- The representative-text rule the code actually implements, stated the
way the amended claim reads: the first fragment whose section is Summary or
Description decides the title (Summary content, or the 50-character prefix
of the Description content); with no such fragment the tree identifier is
used. -/
def representative_text_spec (tree : TicketTree) : String :=
  match tree.nodes.find? (fun n => n.section' == "Summary" || n.section' == "Description") with
  | some n => if n.section' == "Summary" then n.content else pyTake n.content 50
  | none => tree.id

theorem title_from_nodes_eq_spec (fb : String) (l : List TicketNode) :
    title_from_nodes fb l =
      match l.find? (fun n => n.section' == "Summary" || n.section' == "Description") with
      | some n => if n.section' == "Summary" then n.content else pyTake n.content 50
      | none => fb := by
  induction l with
  | nil => rfl
  | cons n rest ih =>
    by_cases hs : n.section' = "Summary"
    · simp [title_from_nodes, List.find?_cons, hs]
    · by_cases hd : n.section' = "Description"
      · simp [title_from_nodes, List.find?_cons, hd, hs]
      · simp [title_from_nodes, List.find?_cons, hs, hd, ih]

/-- Claim C6 (amended): the representative text is decided by the FIRST fragment
tagged Summary or Description in node order — a Summary fragment occurring
after a Description fragment is ignored; with neither section present the
tree identifier is used. -/
theorem get_ticket_title_first_summary_or_description (tree : TicketTree) :
    get_ticket_title tree = representative_text_spec tree := by
  unfold get_ticket_title representative_text_spec
  exact title_from_nodes_eq_spec tree.id tree.nodes

/-! ### C8: tree identifier derivation -/

/-- Claim C8 counterexample: the ticket identifier `a_b` itself contains the
separator.  Its Summary fragment is `a_b_summary`, and
`root_node.id.split('_')[0]` yields `a`, not `a_b`: the section suffix is
not merely stripped. -/
theorem construct_ticket_tree_id_truncates_underscore :
    parse_ticket_with_rules { id := some "a_b", Summary := some "s" } =
      Except.ok [TicketNode.mk "a_b_summary" "Summary" "s"] ∧
    (construct_ticket_tree [TicketNode.mk "a_b_summary" "Summary" "s"]).id = "a" ∧
    ("a" : String) ≠ "a_b" := by
  exact ⟨rfl, rfl, by decide⟩

/-- Claim C8 (amended): the tree identifier is the prefix of the root fragment's
identifier before its FIRST underscore.  For fragment identifiers of the
shape `<t>_<suffix>` this recovers the ticket identifier `t` exactly when
`t` itself contains no underscore. -/
theorem construct_ticket_tree_id_before_first_underscore (t : String)
    (n0 : TicketNode) (rest : List TicketNode)
    (ht : ∀ c ∈ t.data, c ≠ '_')
    (hids : ∀ n ∈ n0 :: rest, ∃ s, n.id = t ++ "_" ++ s) :
    (construct_ticket_tree (n0 :: rest)).id = t := by
  obtain ⟨s, hs⟩ := hids _ (rootFragment_mem n0 rest)
  show String.mk (((rootFragment n0 (n0 :: rest)).id).data.takeWhile (fun c => c != '_')) = t
  rw [hs, String.data_append, String.data_append]
  have hone : ("_" : String).data = ['_'] := rfl
  rw [hone, List.append_assoc]
  rw [List.takeWhile_append_of_pos (by intro a ha; simpa using ht a ha)]
  simp [List.takeWhile_cons]

/-- Witness for the amended C8 theorem at a concrete underscore-free ticket
identifier. -/
theorem construct_ticket_tree_id_before_first_underscore_witness :
    (∀ c ∈ ("a" : String).data, c ≠ '_') ∧
    (∀ n ∈ [TicketNode.mk "a_summary" "Summary" "s"], ∃ s, n.id = "a" ++ "_" ++ s) ∧
    (construct_ticket_tree [TicketNode.mk "a_summary" "Summary" "s"]).id = "a" :=
  ⟨by decide, by intro n hn; simp at hn; exact ⟨"summary", by subst hn; rfl⟩,
   construct_ticket_tree_id_before_first_underscore "a" (TicketNode.mk "a_summary" "Summary" "s") []
     (by decide) (by intro n hn; simp at hn; exact ⟨"summary", by subst hn; rfl⟩)⟩

end KG

namespace KG

/-! ### C4, C5: implicit-connection discovery -/

/-- Two connection rows name the same unordered ticket-id pair. -/
def sameUPair (c c' : String × String × ℚ) : Prop :=
  (c.1 = c'.1 ∧ c.2.1 = c'.2.1) ∨ (c.1 = c'.2.1 ∧ c.2.1 = c'.1)

theorem mem_fic_iff (sim : TicketTree → TicketTree → ℚ) (thr : ℚ) :
    ∀ (trees : List TicketTree) (c : String × String × ℚ),
    c ∈ find_implicit_connections sim thr trees ↔
    ∃ t1 t2, List.Sublist [t1, t2] trees ∧ thr ≤ sim t1 t2 ∧
      c = (t1.id, t2.id, sim t1 t2) := by
  intro trees
  induction trees with
  | nil =>
    intro c
    simp [find_implicit_connections, List.sublist_nil]
  | cons t rest ih =>
    intro c
    rw [find_implicit_connections, List.mem_append, List.mem_filterMap]
    constructor
    · rintro (⟨t2, ht2, hsome⟩ | hmem)
      · by_cases hle : thr ≤ sim t t2
        · rw [if_pos hle] at hsome
          refine ⟨t, t2, ?_, hle, (Option.some.inj hsome).symm⟩
          exact List.Sublist.cons₂ t (List.singleton_sublist.mpr ht2)
        · rw [if_neg hle] at hsome
          cases hsome
      · obtain ⟨t1, t2, hsub, hle, hc⟩ := (ih c).mp hmem
        exact ⟨t1, t2, hsub.cons t, hle, hc⟩
    · rintro ⟨t1, t2, hsub, hle, hc⟩
      rcases List.sublist_cons_iff.mp hsub with hsub1 | ⟨r, hr, hrsub⟩
      · right
        exact (ih c).mpr ⟨t1, t2, hsub1, hle, hc⟩
      · left
        injection hr with h1 h2
        subst h1
        refine ⟨t2, ?_, ?_⟩
        · exact List.singleton_sublist.mp (h2 ▸ hrsub)
        · rw [if_pos hle, hc]
    
theorem fic_ids (sim : TicketTree → TicketTree → ℚ) (thr : ℚ) (trees : List TicketTree)
    (c : String × String × ℚ) (h : c ∈ find_implicit_connections sim thr trees) :
    (∃ t1 ∈ trees, c.1 = t1.id) ∧ (∃ t2 ∈ trees, c.2.1 = t2.id) := by
  obtain ⟨t1, t2, hsub, _, hc⟩ := (mem_fic_iff sim thr trees c).mp h
  have h1 : t1 ∈ trees := hsub.subset (by simp)
  have h2 : t2 ∈ trees := hsub.subset (by simp)
  rw [hc]
  exact ⟨⟨t1, h1, rfl⟩, ⟨t2, h2, rfl⟩⟩

theorem fic_pairwise (sim : TicketTree → TicketTree → ℚ) (thr : ℚ) :
    ∀ (trees : List TicketTree), trees.Pairwise (fun a b => a.id ≠ b.id) →
    (find_implicit_connections sim thr trees).Pairwise (fun c c' => ¬ sameUPair c c') := by
  intro trees
  induction trees with
  | nil =>
    intro _
    simp [find_implicit_connections]
  | cons t rest ih =>
    intro hdist
    rw [List.pairwise_cons] at hdist
    obtain ⟨hhead, htail⟩ := hdist
    rw [find_implicit_connections, List.pairwise_append]
    refine ⟨?_, ih htail, ?_⟩
    · rw [List.pairwise_filterMap]
      refine List.Pairwise.imp_of_mem ?_ htail
      intro a b ha hb hne x hx y hy
      by_cases hlea : thr ≤ sim t a
      · rw [if_pos hlea, Option.mem_def] at hx
        by_cases hleb : thr ≤ sim t b
        · rw [if_pos hleb, Option.mem_def] at hy
          have hxv := Option.some.inj hx
          have hyv := Option.some.inj hy
          subst hxv
          subst hyv
          intro hsame
          rcases hsame with ⟨_, hab⟩ | ⟨hta, _⟩
          · exact hne hab
          · exact hhead b hb hta
        · rw [if_neg hleb] at hy
          cases hy
      · rw [if_neg hlea] at hx
        cases hx
    · intro x hx y hy
      rw [List.mem_filterMap] at hx
      obtain ⟨t2, ht2, hsome⟩ := hx
      by_cases hle : thr ≤ sim t t2
      · rw [if_pos hle] at hsome
        have hxv := Option.some.inj hsome
        subst hxv
        obtain ⟨⟨u1, hu1, hy1⟩, ⟨u2, hu2, hy2⟩⟩ := fic_ids sim thr rest y hy
        intro hsame
        rcases hsame with ⟨ha, _⟩ | ⟨ha, _⟩
        · exact hhead u1 hu1 (hy1 ▸ ha)
        · exact hhead u2 hu2 (hy2 ▸ ha)
      · rw [if_neg hle] at hsome
        cases hsome

/-- Claim C4: an implicit connection is emitted for an ordered pair of trees (the
second positioned after the first) exactly when the pair similarity — the
cosine `cos` of the two representative embeddings — is at least the
threshold; the comparison is inclusive (`thr ≤ sim` emits at equality), and
under pairwise-distinct tree ids each unordered id pair occurs at most once
in the output. -/
theorem find_implicit_connections_threshold_spec
    (cos : List ℚ → List ℚ → ℚ) (embed : String → Option (List ℚ))
    (thr : ℚ) (trees : List TicketTree)
    (hdist : trees.Pairwise (fun a b => a.id ≠ b.id)) :
    (∀ c, c ∈ find_implicit_connections (calculate_similarity cos embed) thr trees ↔
      ∃ t1 t2, List.Sublist [t1, t2] trees ∧
        thr ≤ calculate_similarity cos embed t1 t2 ∧
        c = (t1.id, t2.id, calculate_similarity cos embed t1 t2)) ∧
    (find_implicit_connections (calculate_similarity cos embed) thr trees).Pairwise
      (fun c c' => ¬ sameUPair c c') :=
  ⟨fun c => mem_fic_iff _ thr trees c, fic_pairwise _ thr trees hdist⟩

/-- Witness for the C4 theorem: two concrete trees whose similarity equals
the threshold exactly — the boundary pair is emitted. -/
theorem find_implicit_connections_threshold_spec_witness :
    ([TicketTree.mk "t1" [] [], TicketTree.mk "t2" [] []].Pairwise
      (fun a b => a.id ≠ b.id)) ∧
    ((∀ c, c ∈ find_implicit_connections
        (calculate_similarity (fun _ _ => 1) (fun _ => some [])) 1
        [TicketTree.mk "t1" [] [], TicketTree.mk "t2" [] []] ↔
      ∃ t1 t2, List.Sublist [t1, t2]
          [TicketTree.mk "t1" [] [], TicketTree.mk "t2" [] []] ∧
        (1 : ℚ) ≤ calculate_similarity (fun _ _ => 1) (fun _ => some []) t1 t2 ∧
        c = (t1.id, t2.id, calculate_similarity (fun _ _ => 1) (fun _ => some []) t1 t2)) ∧
    (find_implicit_connections
        (calculate_similarity (fun _ _ => 1) (fun _ => some [])) 1
        [TicketTree.mk "t1" [] [], TicketTree.mk "t2" [] []]).Pairwise
      (fun c c' => ¬ sameUPair c c')) :=
  ⟨by decide,
   find_implicit_connections_threshold_spec (fun _ _ => 1) (fun _ => some []) 1
     [TicketTree.mk "t1" [] [], TicketTree.mk "t2" [] []] (by decide)⟩

/-- Claim C5 counterexample: at the legal threshold `0`, a tree whose
representative-text embedding always fails is NOT excluded from the
pairwise comparisons: the `except` fallback gives the pair similarity
`0.0`, the inclusive comparison passes, and an implicit connection naming
the failed tree is emitted with score `0`. -/
theorem embed_failure_not_excluded_at_zero_threshold :
    (fun _ : String => (none : Option (List ℚ)))
        (get_ticket_title (TicketTree.mk "t1" [] [])) = none ∧
    find_implicit_connections
        (calculate_similarity (fun _ _ => 0) (fun _ => none)) 0
        [TicketTree.mk "t1" [] [], TicketTree.mk "t2" [] []] =
      [("t1", "t2", 0)] := by
  exact ⟨rfl, rfl⟩

/-- Claim C5 (amended): the failure handling is a similarity-0 fallback, not an
exclusion — but for every positive threshold the effect on the output is
exclusion: each emitted implicit connection arises from a pair of trees
whose representative-text embeddings both succeed, because a pair with a
failed side scores `0.0 < threshold`.  (At threshold exactly `0` pairs
naming a failed tree are still emitted; see the counterexample.) -/
theorem embed_failure_excluded_for_positive_threshold
    (cos : List ℚ → List ℚ → ℚ) (embed : String → Option (List ℚ))
    (thr : ℚ) (trees : List TicketTree) (hthr : 0 < thr) :
    ∀ c ∈ find_implicit_connections (calculate_similarity cos embed) thr trees,
      ∃ t1 t2, List.Sublist [t1, t2] trees ∧
        (embed (get_ticket_title t1)).isSome = true ∧
        (embed (get_ticket_title t2)).isSome = true ∧
        c = (t1.id, t2.id, calculate_similarity cos embed t1 t2) := by
  intro c hc
  obtain ⟨t1, t2, hsub, hle, hcEq⟩ := (mem_fic_iff _ thr trees c).mp hc
  have hpos : calculate_similarity cos embed t1 t2 ≠ 0 := by
    intro h0
    rw [h0] at hle
    exact absurd (lt_of_lt_of_le hthr hle) (lt_irrefl 0)
  cases he1 : embed (get_ticket_title t1) with
  | none =>
    exact absurd (by simp [calculate_similarity, he1]) hpos
  | some e1 =>
    cases he2 : embed (get_ticket_title t2) with
    | none =>
      exact absurd (by simp [calculate_similarity, he1, he2]) hpos
    | some e2 =>
      exact ⟨t1, t2, hsub, by rw [he1]; rfl, by rw [he2]; rfl, hcEq⟩

/-- Witness for the amended C5 theorem at threshold 1 with an embedding
provider that succeeds on every input. -/
theorem embed_failure_excluded_for_positive_threshold_witness :
    (0 : ℚ) < 1 ∧
    (∀ c ∈ find_implicit_connections
        (calculate_similarity (fun _ _ => 1) (fun _ => some [])) 1
        [TicketTree.mk "t1" [] [], TicketTree.mk "t2" [] []],
      ∃ t1 t2, List.Sublist [t1, t2]
          [TicketTree.mk "t1" [] [], TicketTree.mk "t2" [] []] ∧
        ((fun _ : String => some ([] : List ℚ)) (get_ticket_title t1)).isSome = true ∧
        ((fun _ : String => some ([] : List ℚ)) (get_ticket_title t2)).isSome = true ∧
        c = (t1.id, t2.id,
          calculate_similarity (fun _ _ => 1) (fun _ => some []) t1 t2)) :=
  ⟨by decide,
   embed_failure_excluded_for_positive_threshold (fun _ _ => 1) (fun _ => some []) 1
     [TicketTree.mk "t1" [] [], TicketTree.mk "t2" [] []] (by decide)⟩

end KG

namespace KG

/-! ### C7: explicit connections as a projection of links metadata -/

/-- The specification's description of explicit-connection discovery: for
every ticket and every declared link record, one
`(ticketId, linkedTicketId, relationshipLabel)` row, verbatim and in
order, with duplicates preserved and no check of the target. -/
def explicitProjection (tickets : List Ticket) : List (String × String × String) :=
  tickets.flatMap (fun t => (t.links.getD []).map
    (fun l => (t.id.getD "", l.ticket_id, l.relationship)))

theorem ticket_link_rows_go_ok (i : String) (ls : List Link) :
    ticket_link_rows_go (some i) ls =
      Except.ok (ls.map (fun l => (i, l.ticket_id, l.relationship))) := by
  induction ls with
  | nil => rfl
  | cons l ls ih => simp [ticket_link_rows_go, ih]

theorem ticket_link_rows_ok (t : Ticket)
    (h : t.links.getD [] = [] ∨ t.id.isSome = true) :
    ticket_link_rows t = Except.ok ((t.links.getD []).map
      (fun l => (t.id.getD "", l.ticket_id, l.relationship))) := by
  unfold ticket_link_rows
  cases hls : t.links with
  | none => simp
  | some ls =>
    rcases h with h | h
    · rw [hls] at h
      simp only [Option.getD_some] at h
      subst h
      simp [ticket_link_rows_go]
    · obtain ⟨i, hi⟩ := Option.isSome_iff_exists.mp h
      rw [hi]
      exact ticket_link_rows_go_ok i ls

theorem fec_ok (tickets : List Ticket)
    (h : ∀ t ∈ tickets, t.links.getD [] = [] ∨ t.id.isSome = true) :
    find_explicit_connections tickets = Except.ok (explicitProjection tickets) := by
  induction tickets with
  | nil => rfl
  | cons t rest ih =>
    rw [find_explicit_connections]
    rw [ticket_link_rows_ok t (h t (List.mem_cons_self t rest))]
    rw [ih (fun u hu => h u (List.mem_cons_of_mem t hu))]
    simp [explicitProjection]

/-- Claim C7: for tickets that carry an identifier whenever they declare links
(the ticket-record contract makes `id` required), explicit-connection
discovery succeeds and returns exactly the 1:1 projection of the `links`
metadata: one verbatim row per declared link, in ticket order, duplicates
preserved, and no existence check of the link target. -/
theorem find_explicit_connections_is_projection (tickets : List Ticket)
    (h : ∀ t ∈ tickets, t.links.getD [] = [] ∨ t.id.isSome = true) :
    find_explicit_connections tickets = Except.ok (explicitProjection tickets) :=
  fec_ok tickets h

/-- Witness for C7: one ticket declaring the same link twice plus a link to
a ticket that exists nowhere — both duplicates and the dangling reference
are emitted verbatim. -/
theorem find_explicit_connections_is_projection_witness :
    (∀ t ∈ [Ticket.mk (some "A") none none none none none none none none
        (some [Link.mk "B" "blocks", Link.mk "B" "blocks", Link.mk "C" "relates_to"])],
      t.links.getD [] = [] ∨ t.id.isSome = true) ∧
    find_explicit_connections
        [Ticket.mk (some "A") none none none none none none none none
          (some [Link.mk "B" "blocks", Link.mk "B" "blocks", Link.mk "C" "relates_to"])] =
      Except.ok [("A", "B", "blocks"), ("A", "B", "blocks"), ("A", "C", "relates_to")] := by
  refine ⟨by decide, ?_⟩
  rw [find_explicit_connections_is_projection _ (by decide)]
  rfl

/-! ### C9, C10: the per-ticket build loop -/

theorem build_graph_trees_append (l1 l2 : List Ticket) :
    build_graph_trees (l1 ++ l2) =
      ((build_graph_trees l1).1 ++ (build_graph_trees l2).1,
       (build_graph_trees l1).2 ++ (build_graph_trees l2).2) := by
  induction l1 with
  | nil => simp [build_graph_trees]
  | cons t rest ih =>
    rw [List.cons_append, build_graph_trees, build_graph_trees, ih]
    cases parse_ticket_with_rules t <;> rfl

/-- Claim C9 counterexample: a ticket whose `id` is present but EMPTY is accepted
— the code only checks key presence — and the build produces a tree for it
(with empty tree identifier) and records no failure, where the claim
demands an attributable failure and no tree. -/
theorem build_graph_accepts_empty_id :
    ({ id := some "", Summary := some "s" } : Ticket).id = some "" ∧
    build_graph_trees [{ id := some "", Summary := some "s" }] =
      ([TicketTree.mk "" [TicketNode.mk "_summary" "Summary" "s"] []], []) := by
  exact ⟨rfl, rfl⟩

/-- Claim C9 (amended): a ticket whose record lacks the `id` KEY fails its parse
(`ValueError`, caught per ticket), produces no tree, and is logged with the
placeholder context `unknown`; every other ticket still produces its tree
and the build completes — provided the id-less ticket declares no links
(with links, the later explicit-connection phase would abort the whole
build on `KeyError`).  A present-but-empty id is accepted (counterexample
above). -/
theorem build_graph_missing_id_key_isolated
    (cos : List ℚ → List ℚ → ℚ) (embed : String → Option (List ℚ)) (thr : ℚ)
    (pre post : List Ticket) (t : Ticket)
    (ht : t.id = none) (hl : t.links.getD [] = [])
    (hw : ∀ u ∈ pre ++ post, u.links.getD [] = [] ∨ u.id.isSome = true) :
    ∃ g errs, build_graph cos embed thr (pre ++ t :: post) = Except.ok (g, errs) ∧
      g.trees = (build_graph_trees pre).1 ++ (build_graph_trees post).1 ∧
      errs = (build_graph_trees pre).2 ++ "unknown" :: (build_graph_trees post).2 := by
  have hparse : parse_ticket_with_rules t = Except.error "ticket must have an id field" := by
    unfold parse_ticket_with_rules
    rw [ht]
  have htrees : build_graph_trees (pre ++ t :: post) =
      ((build_graph_trees pre).1 ++ (build_graph_trees post).1,
       (build_graph_trees pre).2 ++ "unknown" :: (build_graph_trees post).2) := by
    rw [build_graph_trees_append, build_graph_trees, hparse]
    rw [ht]
    rfl
  have hfec : find_explicit_connections (pre ++ t :: post) =
      Except.ok (explicitProjection (pre ++ t :: post)) := by
    apply fec_ok
    intro u hu
    rcases List.mem_append.mp hu with h | h
    · exact hw u (List.mem_append.mpr (Or.inl h))
    · rcases List.mem_cons.mp h with h | h
      · subst h
        exact Or.inl hl
      · exact hw u (List.mem_append.mpr (Or.inr h))
  refine ⟨KnowledgeGraph.mk ((build_graph_trees pre).1 ++ (build_graph_trees post).1)
      (explicitProjection (pre ++ t :: post))
      (find_implicit_connections (calculate_similarity cos embed) thr
        ((build_graph_trees pre).1 ++ (build_graph_trees post).1)),
    (build_graph_trees pre).2 ++ "unknown" :: (build_graph_trees post).2, ?_, rfl, rfl⟩
  unfold build_graph
  rw [htrees, hfec]

/-- Witness for the amended C9 theorem: the id-less ticket sits between two
well-formed tickets; both neighbours still produce their trees. -/
theorem build_graph_missing_id_key_isolated_witness :
    (({} : Ticket).id = none) ∧
    (({} : Ticket).links.getD [] = []) ∧
    (∀ u ∈ [({ id := some "A", Summary := some "sa" } : Ticket)] ++
        [({ id := some "B", Summary := some "sb" } : Ticket)],
      u.links.getD [] = [] ∨ u.id.isSome = true) ∧
    (∃ g errs, build_graph (fun _ _ => 0) (fun _ => some []) 1
        ([({ id := some "A", Summary := some "sa" } : Ticket)] ++
          ({} : Ticket) :: [({ id := some "B", Summary := some "sb" } : Ticket)]) =
        Except.ok (g, errs) ∧
      g.trees = (build_graph_trees [({ id := some "A", Summary := some "sa" } : Ticket)]).1 ++
        (build_graph_trees [({ id := some "B", Summary := some "sb" } : Ticket)]).1 ∧
      errs = (build_graph_trees [({ id := some "A", Summary := some "sa" } : Ticket)]).2 ++
        "unknown" :: (build_graph_trees [({ id := some "B", Summary := some "sb" } : Ticket)]).2) :=
  ⟨rfl, rfl, by decide,
   build_graph_missing_id_key_isolated (fun _ _ => 0) (fun _ => some []) 1
     [({ id := some "A", Summary := some "sa" } : Ticket)]
     [({ id := some "B", Summary := some "sb" } : Ticket)]
     ({} : Ticket) rfl rfl (by decide)⟩

/-- Claim C10: a ticket that has an identifier but no recognized content field at
all still appends a tree to the build result, and that tree is the fully
empty tree — empty identifier string, no nodes, no edges — so the ticket's
identifier is not recoverable from it. -/
theorem build_graph_empty_content_ticket_tree (pre : List Ticket) (t : Ticket) (tid : String)
    (hid : t.id = some tid)
    (hs : pyOr t.Summary (pyOr t.summary (t.title.getD "")) = "")
    (hd : pyOr t.Description (pyOr t.description (t.text.getD "")) = "")
    (hp : pyOr t.Priority (t.priority.getD "") = "") :
    (build_graph_trees (pre ++ [t])).1 =
      (build_graph_trees pre).1 ++ [TicketTree.mk "" [] []] := by
  have hparse : parse_ticket_with_rules t = Except.ok [] := by
    unfold parse_ticket_with_rules
    rw [hid]
    simp [hs, hd, hp]
  rw [build_graph_trees_append]
  simp [build_graph_trees, hparse, construct_ticket_tree]

/-- Witness for C10: a ticket carrying only an identifier. -/
theorem build_graph_empty_content_ticket_tree_witness :
    (({ id := some "T" } : Ticket).id = some "T") ∧
    (pyOr ({ id := some "T" } : Ticket).Summary
      (pyOr ({ id := some "T" } : Ticket).summary
        (({ id := some "T" } : Ticket).title.getD "")) = "") ∧
    (pyOr ({ id := some "T" } : Ticket).Description
      (pyOr ({ id := some "T" } : Ticket).description
        (({ id := some "T" } : Ticket).text.getD "")) = "") ∧
    (pyOr ({ id := some "T" } : Ticket).Priority
      (({ id := some "T" } : Ticket).priority.getD "") = "") ∧
    (build_graph_trees ([] ++ [({ id := some "T" } : Ticket)])).1 =
      (build_graph_trees []).1 ++ [TicketTree.mk "" [] []] :=
  ⟨rfl, rfl, rfl, rfl,
   build_graph_empty_content_ticket_tree [] ({ id := some "T" } : Ticket) "T"
     rfl rfl rfl rfl⟩

end KG
